import Mathlib

/-!
Verification of the PromptForm AI survey-script data model and its three
export renderers: the plain-text renderer (formatContentAsText), the
delimited survey-import serializer (generateQualtricsTxt), and the
paginated PDF layout engine (handleExportPDF / addSection / checkPageBreak).
The definitions below are shallow embeddings of the TypeScript source:
mutation of local accumulators (line arrays, counters, the vertical
cursor) becomes explicit state passing.
-/

/-- The QuestionType union from src (types): FreeText | MultipleChoice |
SingleChoice | LikertScale. -/
inductive QuestionType where
  | FreeText
  | MultipleChoice
  | SingleChoice
  | LikertScale
deriving DecidableEq, Repr

/-- The Question interface: id, text, optional type, optional options. -/
structure Question where
  id : String
  text : String
  type : Option QuestionType := none
  options : Option (List String) := none
deriving DecidableEq, Repr

/-- The CoreQuestionSection interface: topic plus questions. -/
structure CoreQuestionSection where
  topic : String
  questions : List Question
deriving DecidableEq, Repr

/-- The GeneratedContent interface: the whole document. `isQuestionnaire`
is optional in the source, hence an Option here. -/
structure GeneratedContent where
  opening : List Question
  core : List CoreQuestionSection
  followUps : List Question
  closing : List Question
  isQuestionnaire : Option Bool := none
deriving DecidableEq, Repr

/-- The two mutable counters of generateQualtricsTxt: mcCounter and
teCounter. -/
structure QState where
  mc : Nat
  te : Nat
deriving DecidableEq, Repr

/-- The body of the forEach in processQuestions (qsfGenerator.ts): one
question's pushes to `lines` plus the counter mutations. A question with
no type returns before pushing anything (including the trailing blank
line). The per-question trailing blank line after the switch is included. -/
def emitQuestion (st : QState) (q : Question) : QState × List String :=
  match q.type with
  | none => (st, [])
  | some QuestionType.SingleChoice =>
      ({ st with mc := st.mc + 1 },
        [("MC" ++ toString st.mc ++ ". " ++ q.text), ""] ++ q.options.getD [] ++ [""])
  | some QuestionType.LikertScale =>
      ({ st with mc := st.mc + 1 },
        [("MC" ++ toString st.mc ++ ". " ++ q.text), ""] ++ q.options.getD [] ++ [""])
  | some QuestionType.MultipleChoice =>
      ({ st with mc := st.mc + 1 },
        [("MC" ++ toString st.mc ++ ". " ++ q.text), ("[[MultipleAnswer]]"), ""]
          ++ q.options.getD [] ++ [""])
  | some QuestionType.FreeText =>
      ({ st with te := st.te + 1 },
        [("TE" ++ toString st.te ++ ". " ++ q.text), ""])

/-- processQuestions (qsfGenerator.ts): forEach over the question list,
threading the counters and accumulating lines. -/
def processQuestions (st : QState) : List Question → QState × List String
  | [] => (st, [])
  | q :: rest =>
      let p1 := emitQuestion st q
      let p2 := processQuestions p1.1 rest
      (p2.1, p1.2 ++ p2.2)

/-- One `[[Block:...]]` group of generateQualtricsTxt: the source guards
each group with a `length > 0` check, pushes the marker line and a blank
line, then calls processQuestions. -/
def blockLines (marker : String) (st : QState) (qs : List Question) :
    QState × List String :=
  if qs.length > 0 then
    let p := processQuestions st qs
    (p.1, [marker, ""] ++ p.2)
  else (st, [])

/-- The content.core.forEach loop of generateQualtricsTxt: one block per
core section with a non-empty question list, in order. -/
def coreBlocks (st : QState) : List CoreQuestionSection → QState × List String
  | [] => (st, [])
  | sec :: rest =>
      let p1 := blockLines ("[[Block:Core Questions: " ++ sec.topic ++ "]]") st sec.questions
      let p2 := coreBlocks p1.1 rest
      (p2.1, p1.2 ++ p2.2)

/-- The whole line list of generateQualtricsTxt, threading the counters
through the four top-level groups in the source's fixed order. -/
def qualtricsBlocks (st : QState) (c : GeneratedContent) : QState × List String :=
  let p1 := blockLines ("[[Block:Opening / Warm-up Questions]]") st c.opening
  let p2 := coreBlocks p1.1 c.core
  let p3 := blockLines ("[[Block:Follow-ups / Probes]]") p2.1 c.followUps
  let p4 := blockLines ("[[Block:Closing / Wrap-up]]") p3.1 c.closing
  (p4.1, p1.2 ++ p2.2 ++ p3.2 ++ p4.2)

/-- The line list produced by generateQualtricsTxt, with both counters
starting at 1 as in the source. -/
def qualtricsLines (c : GeneratedContent) : List String :=
  (qualtricsBlocks ⟨1, 1⟩ c).2

/-- generateQualtricsTxt (qsfGenerator.ts): the lines joined by newline. -/
def generateQualtricsTxt (c : GeneratedContent) : String :=
  String.intercalate ("\n") (qualtricsLines c)

/-- One question's contribution to formatContentAsText: the `- text` line
plus, when the options field is present, one indented line per option. -/
def questionLine (q : Question) : String :=
  "- " ++ q.text ++ "\n"
    ++ String.join ((q.options.getD []).map (fun opt => "  - " ++ opt ++ "\n"))

/-- The Opening part of formatContentAsText: heading, questions, blank. -/
def ptOpening (c : GeneratedContent) : String :=
  "## Opening / Warm-up Questions\n"
    ++ String.join (c.opening.map questionLine) ++ "\n"

/-- One core section's contribution to formatContentAsText: the heading
with the section topic, the section's questions, then a blank line. -/
def ptSection (sec : CoreQuestionSection) : String :=
  "## Core Questions: " ++ sec.topic ++ "\n"
    ++ String.join (sec.questions.map questionLine) ++ "\n"

/-- The core part of formatContentAsText: one heading per listed section
(no emptiness check in the source), its questions, then a blank line. -/
def ptCore (c : GeneratedContent) : String :=
  String.join (c.core.map ptSection)

/-- The Follow-ups part of formatContentAsText: the heading is emitted
unconditionally in the source, whether or not followUps is empty. -/
def ptFollow (c : GeneratedContent) : String :=
  "## Follow-ups / Probes\n"
    ++ String.join (c.followUps.map questionLine) ++ "\n"

/-- The Closing part of formatContentAsText: heading then questions (the
source appends no final blank line here). -/
def ptClosing (c : GeneratedContent) : String :=
  "## Closing / Wrap-up\n"
    ++ String.join (c.closing.map questionLine)

/-- formatContentAsText (OutputDisplay): the plain-text renderer, a
sequence of string appends in the source's order. -/
def formatContentAsText (c : GeneratedContent) : String :=
  ptOpening c ++ ptCore c ++ ptFollow c ++ ptClosing c

/-- Page geometry of handleExportPDF: jsPDF in portrait A4 millimetres. -/
def pageWidth : Rat := 210

/-- A4 page height in millimetres. -/
def pageHeight : Rat := 297

/-- The margin constant of handleExportPDF. -/
def margin : Rat := 15

/-- maxLineWidth = pageWidth - margin * 2. -/
def maxLineWidth : Rat := pageWidth - margin * 2

/-- The text-wrapping collaborator pdf.splitTextToSize, abstracted: given
the active font size, the text and the available width, produce the
wrapped lines. -/
def SplitFn : Type := Nat → String → Rat → List String

/-- One pdf.text call recorded by the embedding: the vertical cursor at
the moment of the write, the x coordinate and the wrapped lines. -/
structure PdfWrite where
  y : Rat
  x : Rat
  lines : List String
deriving DecidableEq, Repr

/-- The mutable layout state of handleExportPDF: cursor y, current page
count and the writes performed so far. -/
structure PdfState where
  y : Rat
  page : Nat
  writes : List PdfWrite
deriving DecidableEq, Repr

/-- checkPageBreak (OutputDisplay): if y plus the needed height would
pass the bottom margin, add a page and reset y to the top margin. -/
def checkPageBreak (neededHeight : Rat) (st : PdfState) : PdfState :=
  if st.y + neededHeight > pageHeight - margin then
    { st with page := st.page + 1, y := margin }
  else st

/-- pdf.text: record a write at the current cursor. -/
def pdfText (x : Rat) (ls : List String) (st : PdfState) : PdfState :=
  { st with writes := st.writes ++ [⟨st.y, x, ls⟩] }

/-- The per-question body of addSection's forEach: wrap the question line
at font 11, page-break check, write, advance y; then, when a non-empty
options list is present, wrap and write each option at font 10 with its
own break check, and advance y by 2 after the option list. -/
def addQuestion (split : SplitFn) (st : PdfState) (q : Question) : PdfState :=
  let questionLines := split 11 ("- " ++ q.text) (maxLineWidth - 5)
  let st1 := checkPageBreak ((questionLines.length : Rat) * 5 + 2) st
  let st2 := pdfText (margin + 2) questionLines st1
  let st3 := { st2 with y := st2.y + (questionLines.length : Rat) * 5 + 2 }
  if (q.options.getD []).length > 0 then
    let st4 := (q.options.getD []).foldl (fun s opt =>
      let optionLines := split 10 ("    â€¢ " ++ opt) (maxLineWidth - 10)
      let s1 := checkPageBreak ((optionLines.length : Rat) * (9 / 2)) s
      let s2 := pdfText (margin + 5) optionLines s1
      { s2 with y := s2.y + (optionLines.length : Rat) * (9 / 2) }) st3
    { st4 with y := st4.y + 2 }
  else st3

/-- addSection (OutputDisplay): returns immediately on an empty question
list; otherwise wraps and writes the section title at font 14 (with a
break check for title height plus 8), advances y, processes every
question in order, and finally advances y by 5. -/
def addSection (split : SplitFn) (title : String) (qs : List Question)
    (st : PdfState) : PdfState :=
  if qs.length = 0 then st
  else
    let sectionTitleLines := split 14 title maxLineWidth
    let st1 := checkPageBreak ((sectionTitleLines.length : Rat) * 7 + 8) st
    let st2 := pdfText margin sectionTitleLines st1
    let st3 := { st2 with y := st2.y + (sectionTitleLines.length : Rat) * 7 + 4 }
    let st4 := qs.foldl (addQuestion split) st3
    { st4 with y := st4.y + 5 }

/-- handleExportPDF (OutputDisplay): title at font 18 centred, then the
four groups through addSection in the source's fixed order. The cursor
starts at the top margin on page 1 with no writes yet. -/
def handleExportPDF (split : SplitFn) (c : GeneratedContent) : PdfState :=
  let st0 : PdfState := ⟨margin, 1, []⟩
  let title := if c.isQuestionnaire.getD false then "Generated Questionnaire"
               else "Generated Script"
  let titleLines := split 18 title maxLineWidth
  let st1 := checkPageBreak ((titleLines.length : Rat) * 8) st0
  let st2 := pdfText (pageWidth / 2) titleLines st1
  let st3 := { st2 with y := st2.y + (titleLines.length : Rat) * 8 + 10 }
  let st4 := addSection split ("Opening / Warm-up Questions") c.opening st3
  let st5 := c.core.foldl
    (fun s sec => addSection split ("Core Questions: " ++ sec.topic) sec.questions s) st4
  let st6 := addSection split ("Follow-ups / Probes") c.followUps st5
  addSection split ("Closing / Wrap-up") c.closing st6

/-- The group key passed to updateQuestionText by its callers: one of the
four question-list fields of GeneratedContent. -/
inductive SectionKey where
  | opening
  | core
  | followUps
  | closing
deriving DecidableEq, Repr

/-- The findIndex-then-mutate step of updateQuestionText on one question
list: replace the text of the first question whose id matches, leave
everything else as it is. -/
def updateQ (id newText : String) : List Question → List Question
  | [] => []
  | q :: rest =>
      if q.id = id then { q with text := newText } :: rest
      else q :: updateQ id newText rest

/-- The core branch of updateQuestionText: reach core[coreIndex] and apply
the findIndex-then-mutate step to its questions. An index past the end
leaves the list unchanged (the source would fault there; no caller
produces one). -/
def updateCore (id newText : String) : Nat → List CoreQuestionSection →
    List CoreQuestionSection
  | _, [] => []
  | 0, sec :: rest => { sec with questions := updateQ id newText sec.questions } :: rest
  | Nat.succ j, sec :: rest => sec :: updateCore id newText j rest

/-- updateQuestionText (OutputDisplay): deep-copy-then-mutate of the
document, as a pure update. With section = core and a coreIndex the
targeted section's list is patched; with section = core and no coreIndex
the source's findIndex over the section records finds no id and changes
nothing; otherwise the named top-level list is patched. -/
def updateQuestionText (c : GeneratedContent) (sec : SectionKey) (id : String)
    (newText : String) (coreIndex : Option Nat) : GeneratedContent :=
  match sec, coreIndex with
  | SectionKey.core, some i => { c with core := updateCore id newText i c.core }
  | SectionKey.core, none => c
  | SectionKey.opening, _ => { c with opening := updateQ id newText c.opening }
  | SectionKey.followUps, _ => { c with followUps := updateQ id newText c.followUps }
  | SectionKey.closing, _ => { c with closing := updateQ id newText c.closing }

/-- Questions serialized with the MC prefix: SingleChoice, LikertScale
and MultipleChoice. -/
def isMCcat (q : Question) : Bool :=
  match q.type with
  | some QuestionType.SingleChoice => true
  | some QuestionType.LikertScale => true
  | some QuestionType.MultipleChoice => true
  | _ => false

/-- Questions serialized with the TE prefix: FreeText. -/
def isTEcat (q : Question) : Bool :=
  match q.type with
  | some QuestionType.FreeText => true
  | _ => false

/-- Number of MC-category questions in a list. -/
def countMC (qs : List Question) : Nat := (qs.filter isMCcat).length

/-- Number of TE-category questions in a list. -/
def countTE (qs : List Question) : Nat := (qs.filter isTEcat).length

/-- All questions of a core-section list, in order. -/
def sectionsQuestions (secs : List CoreQuestionSection) : List Question :=
  (secs.map CoreQuestionSection.questions).flatten

/-- All questions of a document in the serializer's traversal order. -/
def docQuestions (c : GeneratedContent) : List Question :=
  c.opening ++ sectionsQuestions c.core ++ c.followUps ++ c.closing

theorem emitQuestion_fst (st : QState) (q : Question) :
    (emitQuestion st q).1 =
      ⟨st.mc + (if isMCcat q then 1 else 0), st.te + (if isTEcat q then 1 else 0)⟩ := by
  rcases q with ⟨i, t, ty, os⟩
  rcases ty with _ | ty
  · rfl
  · cases ty <;> rfl

theorem processQuestions_fst (st : QState) (qs : List Question) :
    (processQuestions st qs).1 = ⟨st.mc + countMC qs, st.te + countTE qs⟩ := by
  induction qs generalizing st with
  | nil => simp [processQuestions, countMC, countTE]
  | cons q rest ih =>
      simp only [processQuestions]
      rw [ih, emitQuestion_fst]
      cases h1 : isMCcat q <;> cases h2 : isTEcat q <;>
        simp [countMC, countTE, List.filter_cons, h1, h2] <;> omega

theorem processQuestions_all_untyped (st : QState) (qs : List Question)
    (h : ∀ q ∈ qs, q.type = none) : processQuestions st qs = (st, []) := by
  induction qs with
  | nil => rfl
  | cons q rest ih =>
      have hq : q.type = none := h q (by simp)
      have hr := ih (fun p hp => h p (by simp [hp]))
      simp [processQuestions, emitQuestion, hq, hr]

theorem blockLines_of_untyped (m : String) (st : QState) (qs : List Question)
    (hne : qs ≠ []) (hall : ∀ q ∈ qs, q.type = none) :
    blockLines m st qs = (st, [m, ""]) := by
  rw [blockLines]
  rw [processQuestions_all_untyped st qs hall]
  simp [List.length_pos, hne]

/-- Claim C10: a group whose question list is non-empty but entirely
type-less still emits its block marker line and the following blank line,
and nothing else; only a literally empty question list suppresses the
marker; in particular a document whose followUps are non-empty and all
type-less still carries the Follow-ups block marker in its delimited
output. -/
theorem typeless_block_marker_emitted (marker : String) (st : QState)
    (qs : List Question) (c : GeneratedContent) :
    (qs ≠ [] → (∀ q ∈ qs, q.type = none) → blockLines marker st qs = (st, [marker, ""])) ∧
    (blockLines marker st [] = (st, [])) ∧
    (c.followUps ≠ [] → (∀ q ∈ c.followUps, q.type = none) →
      ("[[Block:Follow-ups / Probes]]") ∈ qualtricsLines c) := by
  refine ⟨fun hne hall => blockLines_of_untyped marker st qs hne hall, by simp [blockLines], ?_⟩
  intro hne hall
  simp only [qualtricsLines, qualtricsBlocks]
  rw [blockLines_of_untyped _ _ _ hne hall]
  simp

/-- A document whose followUps list holds one type-less question. -/
def docUntypedFollow : GeneratedContent :=
  { opening := [], core := [], followUps := [{ id := "f1", text := "F" }], closing := [] }

/-- Witness for typeless_block_marker_emitted at a concrete document. -/
theorem typeless_block_marker_emitted_witness :
    ("[[Block:Follow-ups / Probes]]") ∈ qualtricsLines docUntypedFollow := by
  exact (typeless_block_marker_emitted ("") ⟨1, 1⟩ [] docUntypedFollow).2.2
    (by decide) (by decide)

theorem mc_line_ne_marker (a b c : String) :
    ("MC" ++ a ++ b ++ c) ≠ "[[MultipleAnswer]]" := by
  intro h
  have hd := congrArg (fun s => s.data.head?) h
  simp [String.data_append] at hd

/-- Claim C4: a MultipleChoice question yields the literal line
`[[MultipleAnswer]]` immediately after its `MC<n>.` line and before the
blank line preceding its options; a SingleChoice or LikertScale question
emits exactly the MC line, a blank, its options and a blank, and so never
yields the marker line (provided none of its options is that literal). -/
theorem multiple_answer_marker_placement (st : QState) (q : Question) :
    (q.type = some QuestionType.MultipleChoice →
      (emitQuestion st q).2 =
        ("MC" ++ toString st.mc ++ ". " ++ q.text) :: ("[[MultipleAnswer]]") ::
          "" :: (q.options.getD [] ++ [""])) ∧
    ((q.type = some QuestionType.SingleChoice ∨ q.type = some QuestionType.LikertScale) →
      (emitQuestion st q).2 =
        ("MC" ++ toString st.mc ++ ". " ++ q.text) :: "" :: (q.options.getD [] ++ [""]) ∧
      (("[[MultipleAnswer]]") ∉ q.options.getD [] →
        ("[[MultipleAnswer]]") ∉ (emitQuestion st q).2)) := by
  constructor
  · intro h
    simp [emitQuestion, h]
  · intro h
    have hemit : (emitQuestion st q).2 =
        ("MC" ++ toString st.mc ++ ". " ++ q.text) :: "" :: (q.options.getD [] ++ [""]) := by
      rcases h with h | h <;> simp [emitQuestion, h]
    refine ⟨hemit, fun hopt => ?_⟩
    rw [hemit]
    simp only [List.mem_cons, List.mem_append, List.mem_singleton]
    push_neg
    exact ⟨Ne.symm (mc_line_ne_marker _ _ _), by decide, hopt, by decide⟩

/-- A concrete MultipleChoice question with two options. -/
def qMulti : Question :=
  { id := "q1", text := "T", type := some QuestionType.MultipleChoice,
    options := some [("A"), ("B")] }

/-- A concrete SingleChoice question with one option. -/
def qSingle : Question :=
  { id := "q2", text := "S", type := some QuestionType.SingleChoice,
    options := some [("A")] }

/-- Witness for multiple_answer_marker_placement at concrete questions. -/
theorem multiple_answer_marker_placement_witness :
    (emitQuestion ⟨1, 1⟩ qMulti).2 =
      [("MC1. T"), ("[[MultipleAnswer]]"), "", ("A"), ("B"), ""] ∧
    ("[[MultipleAnswer]]") ∉ (emitQuestion ⟨1, 1⟩ qSingle).2 := by
  constructor
  · rw [(multiple_answer_marker_placement ⟨1, 1⟩ qMulti).1 rfl]
    decide
  · exact ((multiple_answer_marker_placement ⟨1, 1⟩ qSingle).2
      (Or.inl rfl)).2 (by decide)

theorem processQuestions_append (st : QState) (qs₁ qs₂ : List Question) :
    processQuestions st (qs₁ ++ qs₂) =
      ((processQuestions (processQuestions st qs₁).1 qs₂).1,
        (processQuestions st qs₁).2 ++ (processQuestions (processQuestions st qs₁).1 qs₂).2) := by
  induction qs₁ generalizing st with
  | nil => simp [processQuestions]
  | cons q rest ih =>
      simp only [List.cons_append, processQuestions, List.append_eq]
      rw [ih]
      simp [List.append_assoc]

theorem emitQuestion_mc_head (st : QState) (q : Question) (h : isMCcat q = true) :
    ∃ tl, (emitQuestion st q).2 = ("MC" ++ toString st.mc ++ ". " ++ q.text) :: tl := by
  rcases q with ⟨i, t, ty, os⟩
  rcases ty with _ | ty
  · simp [isMCcat] at h
  · cases ty
    · simp [isMCcat] at h
    · exact ⟨_, rfl⟩
    · exact ⟨_, rfl⟩
    · exact ⟨_, rfl⟩

theorem emitQuestion_te_head (st : QState) (q : Question) (h : isTEcat q = true) :
    ∃ tl, (emitQuestion st q).2 = ("TE" ++ toString st.te ++ ". " ++ q.text) :: tl := by
  rcases q with ⟨i, t, ty, os⟩
  rcases ty with _ | ty
  · simp [isTEcat] at h
  · cases ty
    · exact ⟨_, rfl⟩
    · simp [isTEcat] at h
    · simp [isTEcat] at h
    · simp [isTEcat] at h

theorem blockLines_fst (m : String) (st : QState) (qs : List Question) :
    (blockLines m st qs).1 = ⟨st.mc + countMC qs, st.te + countTE qs⟩ := by
  by_cases h : qs.length > 0
  · simp only [blockLines, if_pos h]
    simp [processQuestions_fst]
  · have hnil : qs = [] := by simpa using h
    subst hnil
    rfl

theorem coreBlocks_fst (st : QState) (secs : List CoreQuestionSection) :
    (coreBlocks st secs).1 =
      ⟨st.mc + countMC (sectionsQuestions secs), st.te + countTE (sectionsQuestions secs)⟩ := by
  induction secs generalizing st with
  | nil => rfl
  | cons s rest ih =>
      simp only [coreBlocks]
      rw [ih, blockLines_fst]
      simp [sectionsQuestions, countMC, countTE, List.filter_append, QState.mk.injEq]
      omega

theorem qualtricsBlocks_fst (st : QState) (c : GeneratedContent) :
    (qualtricsBlocks st c).1 =
      ⟨st.mc + countMC (docQuestions c), st.te + countTE (docQuestions c)⟩ := by
  simp only [qualtricsBlocks, blockLines_fst, coreBlocks_fst]
  simp [docQuestions, countMC, countTE, List.filter_append, QState.mk.injEq]
  omega

theorem processQuestions_mc_numbering (st : QState) (qs₁ : List Question)
    (q : Question) (qs₂ : List Question) (h : isMCcat q = true) :
    ∃ tl, (processQuestions st (qs₁ ++ q :: qs₂)).2 =
      (processQuestions st qs₁).2 ++
        ("MC" ++ toString (st.mc + countMC qs₁) ++ ". " ++ q.text) :: tl := by
  rw [processQuestions_append]
  obtain ⟨tl, htl⟩ := emitQuestion_mc_head (processQuestions st qs₁).1 q h
  have hmc : (processQuestions st qs₁).1.mc = st.mc + countMC qs₁ := by
    rw [processQuestions_fst]
  refine ⟨tl ++ (processQuestions (emitQuestion (processQuestions st qs₁).1 q).1 qs₂).2, ?_⟩
  simp only [processQuestions]
  rw [htl, hmc]
  simp

theorem processQuestions_te_numbering (st : QState) (qs₁ : List Question)
    (q : Question) (qs₂ : List Question) (h : isTEcat q = true) :
    ∃ tl, (processQuestions st (qs₁ ++ q :: qs₂)).2 =
      (processQuestions st qs₁).2 ++
        ("TE" ++ toString (st.te + countTE qs₁) ++ ". " ++ q.text) :: tl := by
  rw [processQuestions_append]
  obtain ⟨tl, htl⟩ := emitQuestion_te_head (processQuestions st qs₁).1 q h
  have hte : (processQuestions st qs₁).1.te = st.te + countTE qs₁ := by
    rw [processQuestions_fst]
  refine ⟨tl ++ (processQuestions (emitQuestion (processQuestions st qs₁).1 q).1 qs₂).2, ?_⟩
  simp only [processQuestions]
  rw [htl, hte]
  simp

/-- Claim C3: the serializer keeps two independent 1-based counters. A
type-less question is neither counted nor emitted; each MC-category
question (SingleChoice, LikertScale, MultipleChoice) is numbered by the
MC counter and each FreeText question by the TE counter; the counters
advance by exactly one per matching emitted question, so a question
preceded by k matching questions in the list carries number
initial + k, and across the whole document the final counters equal the
initial value 1 plus the respective category counts. -/
theorem serializer_counter_discipline (st : QState) (q : Question)
    (qs₁ qs₂ : List Question) (c : GeneratedContent) :
    (q.type = none → emitQuestion st q = (st, [])) ∧
    ((processQuestions st qs₁).1 = ⟨st.mc + countMC qs₁, st.te + countTE qs₁⟩) ∧
    ((qualtricsBlocks ⟨1, 1⟩ c).1 =
      ⟨1 + countMC (docQuestions c), 1 + countTE (docQuestions c)⟩) ∧
    (isMCcat q = true →
      ∃ tl, (processQuestions st (qs₁ ++ q :: qs₂)).2 =
        (processQuestions st qs₁).2 ++
          ("MC" ++ toString (st.mc + countMC qs₁) ++ ". " ++ q.text) :: tl) ∧
    (isTEcat q = true →
      ∃ tl, (processQuestions st (qs₁ ++ q :: qs₂)).2 =
        (processQuestions st qs₁).2 ++
          ("TE" ++ toString (st.te + countTE qs₁) ++ ". " ++ q.text) :: tl) := by
  refine ⟨fun h => ?_, processQuestions_fst st qs₁, qualtricsBlocks_fst ⟨1, 1⟩ c,
    processQuestions_mc_numbering st qs₁ q qs₂, processQuestions_te_numbering st qs₁ q qs₂⟩
  simp [emitQuestion, h]

/-- A concrete FreeText question. -/
def qFree : Question :=
  { id := "q3", text := "F", type := some QuestionType.FreeText }

/-- A concrete type-less question. -/
def qBare : Question := { id := "q0", text := "Z" }

/-- Witness for serializer_counter_discipline: a type-less question is
skipped, and in the list [qFree, qBare, qSingle] the SingleChoice
question is numbered MC1 while the counters end at mc = 2, te = 2. -/
theorem serializer_counter_discipline_witness :
    emitQuestion ⟨1, 1⟩ qBare = (⟨1, 1⟩, []) ∧
    (processQuestions ⟨1, 1⟩ [qFree, qBare]).1 = ⟨1, 2⟩ ∧
    (∃ tl, (processQuestions ⟨1, 1⟩ ([qFree, qBare] ++ qSingle :: [])).2 =
      (processQuestions ⟨1, 1⟩ [qFree, qBare]).2 ++ (("MC1. S") :: tl)) := by
  obtain ⟨h1, h2, _, h4, _⟩ :=
    serializer_counter_discipline ⟨1, 1⟩ qBare [qFree, qBare] [] docUntypedFollow
  refine ⟨h1 rfl, ?_, ?_⟩
  · have := (serializer_counter_discipline ⟨1, 1⟩ qBare [qFree, qBare] []
      docUntypedFollow).2.1
    rw [this]; decide
  · obtain ⟨tl, htl⟩ := (serializer_counter_discipline ⟨1, 1⟩ qSingle [qFree, qBare] []
      docUntypedFollow).2.2.2.1 (by decide)
    refine ⟨tl, ?_⟩
    rw [htl]
    norm_num [countMC, qFree, qBare, qSingle]
    decide

/-- The lines a typed question pushes before the per-question separator
blank: the numbered question line, for MultipleChoice the marker line,
then for choice types the question/choices blank and the options. -/
def emitBody (st : QState) (q : Question) : List String :=
  match q.type with
  | none => []
  | some QuestionType.SingleChoice =>
      [("MC" ++ toString st.mc ++ ". " ++ q.text), ""] ++ q.options.getD []
  | some QuestionType.LikertScale =>
      [("MC" ++ toString st.mc ++ ". " ++ q.text), ""] ++ q.options.getD []
  | some QuestionType.MultipleChoice =>
      [("MC" ++ toString st.mc ++ ". " ++ q.text), ("[[MultipleAnswer]]"), ""]
        ++ q.options.getD []
  | some QuestionType.FreeText =>
      [("TE" ++ toString st.te ++ ". " ++ q.text)]

/-- A document with two non-empty groups of one FreeText question each. -/
def docTwoBlocks : GeneratedContent :=
  { opening := [{ id := "o1", text := "A", type := some QuestionType.FreeText }],
    core := [], followUps := [],
    closing := [{ id := "z1", text := "B", type := some QuestionType.FreeText }] }

/-- Counterexample to claim C2 as stated: in the delimited output of
docTwoBlocks the last emitted question line of the opening block (index
2) is followed by exactly one blank line (index 3) and then directly by
the next block marker (index 4); the claimed two blank lines before the
marker do not occur. -/
theorem block_separator_single_blank_cex :
    qualtricsLines docTwoBlocks =
      [("[[Block:Opening / Warm-up Questions]]"), "", ("TE1. A"), "",
        ("[[Block:Closing / Wrap-up]]"), "", ("TE2. B"), ""] ∧
    (qualtricsLines docTwoBlocks)[2]? = some ("TE1. A") ∧
    (qualtricsLines docTwoBlocks)[3]? = some "" ∧
    (qualtricsLines docTwoBlocks)[4]? = some ("[[Block:Closing / Wrap-up]]") := by
  exact ⟨by decide, by decide, by decide, by decide⟩

/-- Claim C2 (amended): the serializer appends exactly one blank line
after each emitted question's lines; the additional blank line follows
each block marker (before the block's questions) rather than preceding
the next marker, so a block's last emitted line is separated from the
following `[[Block:...]]` line by exactly the one per-question blank. -/
theorem question_blank_separation_amended (st : QState) (q : Question)
    (marker : String) (qs : List Question) :
    (q.type ≠ none → (emitQuestion st q).2 = emitBody st q ++ [""]) ∧
    (qs ≠ [] → (blockLines marker st qs).2 =
      marker :: "" :: (processQuestions st qs).2) := by
  constructor
  · intro h
    rcases q with ⟨i, t, ty, os⟩
    rcases ty with _ | ty
    · simp at h
    · cases ty <;> simp [emitQuestion, emitBody]
  · intro h
    rw [blockLines]
    simp [List.length_pos, h]

/-- Witness for question_blank_separation_amended at a concrete question
and block. -/
theorem question_blank_separation_amended_witness :
    (emitQuestion ⟨1, 1⟩ qFree).2 = emitBody ⟨1, 1⟩ qFree ++ [""] ∧
    (blockLines ("[[Block:Closing / Wrap-up]]") ⟨1, 1⟩ [qFree]).2 =
      ("[[Block:Closing / Wrap-up]]") :: "" :: (processQuestions ⟨1, 1⟩ [qFree]).2 := by
  exact ⟨(question_blank_separation_amended ⟨1, 1⟩ qFree ("") []).1 (by decide),
    (question_blank_separation_amended ⟨1, 1⟩ qFree
      ("[[Block:Closing / Wrap-up]]") [qFree]).2 (by decide)⟩

/-- A document whose followUps group is empty. -/
def docNoFollow : GeneratedContent :=
  { opening := [{ id := "o1", text := "Tell me about yourself." }],
    core := [], followUps := [], closing := [] }

/-- Counterexample to claim C1 as stated: docNoFollow has followUps = [],
yet its plain-text rendering contains the `## Follow-ups / Probes`
heading line, exhibited by this concatenation decomposition. -/
theorem plaintext_followups_heading_cex :
    docNoFollow.followUps = [] ∧
    formatContentAsText docNoFollow =
      ("## Opening / Warm-up Questions\n- Tell me about yourself.\n\n")
        ++ ("## Follow-ups / Probes\n") ++ ("\n## Closing / Wrap-up\n") := by
  exact ⟨rfl, by decide⟩

/-- Claim C1 (amended): an empty top-level group emits no block marker in
the delimited serializer and no heading in the PDF layout, but the
plain-text renderer emits its fixed group headings unconditionally: the
`## Follow-ups / Probes` heading occurs in the plain-text output of
every document, whether or not followUps is empty. -/
theorem empty_group_markers_amended (st : QState) (marker : String)
    (split : SplitFn) (t : String) (pst : PdfState) (c : GeneratedContent) :
    (blockLines marker st [] = (st, [])) ∧
    (c.followUps = [] → ∀ st' : QState,
      blockLines ("[[Block:Follow-ups / Probes]]") st' c.followUps = (st', [])) ∧
    (addSection split t [] pst = pst) ∧
    (∃ a b, formatContentAsText c = a ++ ("## Follow-ups / Probes\n") ++ b) := by
  refine ⟨by simp [blockLines], ?_, by simp [addSection], ?_⟩
  · intro h st'
    rw [h]
    simp [blockLines]
  · refine ⟨ptOpening c ++ ptCore c,
      String.join (c.followUps.map questionLine) ++ "\n" ++ ptClosing c, ?_⟩
    simp [formatContentAsText, ptFollow, String.append_assoc]

/-- Witness for empty_group_markers_amended at docNoFollow. -/
theorem empty_group_markers_amended_witness :
    blockLines ("[[Block:Follow-ups / Probes]]") ⟨1, 1⟩ docNoFollow.followUps =
      (⟨1, 1⟩, []) := by
  exact (empty_group_markers_amended ⟨1, 1⟩ ("") (fun _ s _ => [s]) ("")
    ⟨margin, 1, []⟩ docNoFollow).2.1 rfl ⟨1, 1⟩

theorem checkPageBreak_writes (n : Rat) (st : PdfState) :
    (checkPageBreak n st).writes = st.writes := by
  rw [checkPageBreak]
  split <;> rfl

/-- A FreeText question carrying a non-empty options list. -/
def qFreeOpts : Question :=
  { id := "q", text := "Q", type := some QuestionType.FreeText,
    options := some [("A")] }

/-- A document whose only question is qFreeOpts. -/
def docFreeOpts : GeneratedContent :=
  { opening := [qFreeOpts], core := [], followUps := [], closing := [] }

/-- Counterexample to claim C5 as stated: a FreeText question carrying
options gets option output in two renderers, because option emission
there keys on the options field, not the type: the plain-text renderer
emits the option line `  - A` right after the question line, and the
PDF layout records an option write (x = margin + 5, the bullet-prefixed
option text) right after the question write. -/
theorem freetext_options_cex :
    qFreeOpts.type = some QuestionType.FreeText ∧
    formatContentAsText docFreeOpts =
      ("## Opening / Warm-up Questions\n- Q\n") ++ ("  - A\n")
        ++ ("\n## Follow-ups / Probes\n\n## Closing / Wrap-up\n") ∧
    (addQuestion (fun _ s _ => [s]) ⟨margin, 1, []⟩ qFreeOpts).writes =
      [⟨15, 17, [("- Q")]⟩, ⟨22, 20, [("    â€¢ A")]⟩] := by
  refine ⟨rfl, by decide, ?_⟩
  norm_num [addQuestion, pdfText, checkPageBreak, margin, pageHeight, maxLineWidth,
    qFreeOpts]
  decide

/-- Claim C9: each renderer is a deterministic pure function of the
document: the plain-text and delimited outputs depend only on the four
question groups, and the PDF layout additionally only on the
questionnaire flag (as read through its falsy default) and the wrapping
function, so repeated runs on equal documents give identical output. -/
theorem renderers_deterministic (c₁ c₂ : GeneratedContent)
    (ho : c₁.opening = c₂.opening) (hc : c₁.core = c₂.core)
    (hf : c₁.followUps = c₂.followUps) (hcl : c₁.closing = c₂.closing) :
    formatContentAsText c₁ = formatContentAsText c₂ ∧
    generateQualtricsTxt c₁ = generateQualtricsTxt c₂ ∧
    (∀ split : SplitFn,
      c₁.isQuestionnaire.getD false = c₂.isQuestionnaire.getD false →
      handleExportPDF split c₁ = handleExportPDF split c₂) := by
  rcases c₁ with ⟨o₁, co₁, f₁, cl₁, iq₁⟩
  rcases c₂ with ⟨o₂, co₂, f₂, cl₂, iq₂⟩
  simp only at ho hc hf hcl
  subst ho hc hf hcl
  refine ⟨rfl, rfl, ?_⟩
  intro split h
  simp only at h
  simp [handleExportPDF, h]

/-- A document with the questionnaire flag absent. -/
def docIqNone : GeneratedContent :=
  { opening := [qFree], core := [], followUps := [], closing := [] }

/-- The same document with the questionnaire flag explicitly false. -/
def docIqFalse : GeneratedContent :=
  { opening := [qFree], core := [], followUps := [], closing := [],
    isQuestionnaire := some false }

/-- Witness for renderers_deterministic: an absent questionnaire flag and
an explicit false one yield identical output from all three renderers. -/
theorem renderers_deterministic_witness :
    formatContentAsText docIqNone = formatContentAsText docIqFalse ∧
    generateQualtricsTxt docIqNone = generateQualtricsTxt docIqFalse ∧
    handleExportPDF (fun _ s _ => [s]) docIqNone =
      handleExportPDF (fun _ s _ => [s]) docIqFalse := by
  have h := renderers_deterministic docIqNone docIqFalse rfl rfl rfl rfl
  exact ⟨h.1, h.2.1, h.2.2 (fun _ s _ => [s]) rfl⟩

/-- All recorded writes of a layout state sit at a cursor position no
lower than the bottom margin. -/
def WritesBounded (st : PdfState) : Prop :=
  ∀ w ∈ st.writes, w.y ≤ pageHeight - margin

theorem checkPageBreak_y_le (n : Rat) (hn : 0 ≤ n) (st : PdfState) :
    (checkPageBreak n st).y ≤ pageHeight - margin := by
  rw [checkPageBreak]
  split
  · show margin ≤ pageHeight - margin
    norm_num [margin, pageHeight]
  · next hcond =>
      push_neg at hcond
      show st.y ≤ pageHeight - margin
      linarith

theorem writesBounded_step (n : Rat) (hn : 0 ≤ n) (x : Rat) (ls : List String)
    (st : PdfState) (h : WritesBounded st) :
    WritesBounded (pdfText x ls (checkPageBreak n st)) := by
  intro w hw
  simp only [pdfText, checkPageBreak_writes, List.mem_append, List.mem_singleton] at hw
  rcases hw with hw | hw
  · exact h w hw
  · subst hw
    exact checkPageBreak_y_le n hn st

theorem writesBounded_setY (st : PdfState) (v : Rat) (h : WritesBounded st) :
    WritesBounded { st with y := v } := h

theorem foldl_writesBounded {α : Type} (f : PdfState → α → PdfState)
    (hf : ∀ s a, WritesBounded s → WritesBounded (f s a)) :
    ∀ (l : List α) (s : PdfState), WritesBounded s → WritesBounded (l.foldl f s) := by
  intro l
  induction l with
  | nil => exact fun s hs => hs
  | cons a rest ih => exact fun s hs => ih (f s a) (hf s a hs)

theorem addQuestion_writesBounded (split : SplitFn) (st : PdfState) (q : Question)
    (h : WritesBounded st) : WritesBounded (addQuestion split st q) := by
  simp only [addQuestion]
  have hbase : WritesBounded
      (pdfText (margin + 2) (split 11 ("- " ++ q.text) (maxLineWidth - 5))
        (checkPageBreak
          (((split 11 ("- " ++ q.text) (maxLineWidth - 5)).length : Rat) * 5 + 2) st)) :=
    writesBounded_step _ (by positivity) _ _ st h
  split
  · apply writesBounded_setY
    apply foldl_writesBounded
    · intro s a hs
      apply writesBounded_setY
      exact writesBounded_step _ (by positivity) _ _ s hs
    · exact writesBounded_setY _ _ hbase
  · exact writesBounded_setY _ _ hbase

theorem addSection_writesBounded (split : SplitFn) (t : String)
    (qs : List Question) (st : PdfState) (h : WritesBounded st) :
    WritesBounded (addSection split t qs st) := by
  rw [addSection]
  split
  · exact h
  · apply writesBounded_setY
    apply foldl_writesBounded
    · exact fun s a hs => addQuestion_writesBounded split s a hs
    · apply writesBounded_setY
      exact writesBounded_step _ (by positivity) _ _ st h

theorem handleExportPDF_writesBounded (split : SplitFn) (c : GeneratedContent) :
    WritesBounded (handleExportPDF split c) := by
  simp only [handleExportPDF]
  apply addSection_writesBounded
  apply addSection_writesBounded
  apply foldl_writesBounded
  · exact fun s a hs => addSection_writesBounded _ _ _ s hs
  · apply addSection_writesBounded
    apply writesBounded_setY
    apply writesBounded_step _ (by positivity)
    intro w hw
    simp at hw

/-- Claim C7: before every block write the layout runs checkPageBreak,
which starts a new page and resets y to the top margin exactly when the
pending extent would pass the bottom margin; consequently every write
recorded by handleExportPDF happens at a cursor y ≤ pageHeight - margin,
for every document and every wrapping function. -/
theorem pdf_write_within_page_bounds (split : SplitFn) (c : GeneratedContent)
    (n : Rat) (st : PdfState) :
    (st.y + n > pageHeight - margin →
      checkPageBreak n st = { st with page := st.page + 1, y := margin }) ∧
    (st.y + n ≤ pageHeight - margin → checkPageBreak n st = st) ∧
    (∀ w ∈ (handleExportPDF split c).writes, w.y ≤ pageHeight - margin) := by
  refine ⟨fun h => ?_, fun h => ?_, handleExportPDF_writesBounded split c⟩
  · rw [checkPageBreak, if_pos h]
  · rw [checkPageBreak, if_neg (by push_neg; exact h)]

/-- Witness for pdf_write_within_page_bounds: a near-bottom cursor breaks
to a fresh page, and the concrete title write of docIqNone sits within
bounds. -/
theorem pdf_write_within_page_bounds_witness :
    checkPageBreak 8 ⟨281, 1, []⟩ = ⟨margin, 2, []⟩ ∧
    (⟨15, 105, [("Generated Script")]⟩ : PdfWrite).y ≤ pageHeight - margin := by
  constructor
  · exact (pdf_write_within_page_bounds (fun _ s _ => [s]) docIqNone 8
      ⟨281, 1, []⟩).1 (by norm_num [pageHeight, margin])
  · refine (pdf_write_within_page_bounds (fun _ s _ => [s]) docIqNone 8
      ⟨281, 1, []⟩).2.2 ⟨15, 105, [("Generated Script")]⟩ ?_
    have hw : (handleExportPDF (fun _ s _ => [s]) docIqNone).writes =
        [⟨15, 105, [("Generated Script")]⟩,
          ⟨33, 15, [("Opening / Warm-up Questions")]⟩,
          ⟨44, 17, [("- F")]⟩] := by
      norm_num [handleExportPDF, addSection, addQuestion, pdfText, checkPageBreak,
        margin, pageHeight, pageWidth, maxLineWidth, docIqNone, qFree]
      decide
    rw [hw]
    simp

theorem updateQ_length (id t : String) (qs : List Question) :
    (updateQ id t qs).length = qs.length := by
  induction qs with
  | nil => rfl
  | cons q rest ih =>
      simp only [updateQ]
      split <;> simp [ih]

theorem updateQ_getElem?_ne (id t : String) (qs : List Question) (i : Nat)
    (q : Question) (hq : qs[i]? = some q) (hne : q.id ≠ id) :
    (updateQ id t qs)[i]? = some q := by
  induction qs generalizing i with
  | nil => simp at hq
  | cons q0 rest ih =>
      simp only [updateQ]
      split
      · next h0 =>
          cases i with
          | zero =>
              simp only [List.getElem?_cons_zero, Option.some.injEq] at hq
              subst hq
              exact absurd h0 hne
          | succ j => simpa using (by simpa using hq : rest[j]? = some q)
      · cases i with
        | zero => simpa using hq
        | succ j =>
            simp only [List.getElem?_cons_succ] at hq ⊢
            exact ih j hq

theorem updateQ_getElem?_fields (id t : String) (qs : List Question) (i : Nat)
    (q q' : Question) (hq : qs[i]? = some q)
    (hq' : (updateQ id t qs)[i]? = some q') :
    q'.id = q.id ∧ q'.type = q.type ∧ q'.options = q.options := by
  induction qs generalizing i with
  | nil => simp at hq
  | cons q0 rest ih =>
      simp only [updateQ] at hq'
      split at hq'
      · cases i with
        | zero =>
            simp only [List.getElem?_cons_zero, Option.some.injEq] at hq hq'
            subst hq
            subst hq'
            exact ⟨rfl, rfl, rfl⟩
        | succ j =>
            simp only [List.getElem?_cons_succ] at hq hq'
            rw [hq'] at hq
            cases hq
            exact ⟨rfl, rfl, rfl⟩
      · cases i with
        | zero =>
            simp only [List.getElem?_cons_zero, Option.some.injEq] at hq hq'
            subst hq
            subst hq'
            exact ⟨rfl, rfl, rfl⟩
        | succ j =>
            simp only [List.getElem?_cons_succ] at hq hq'
            exact ih j hq hq'

theorem updateQ_first_match (id t : String) (qs : List Question) (i : Nat)
    (q : Question) (hq : qs[i]? = some q) (hid : q.id = id)
    (hbefore : ∀ k qk, k < i → qs[k]? = some qk → qk.id ≠ id) :
    (updateQ id t qs)[i]? = some { q with text := t } := by
  induction qs generalizing i with
  | nil => simp at hq
  | cons q0 rest ih =>
      simp only [updateQ]
      split
      · next h0 =>
          cases i with
          | zero =>
              simp only [List.getElem?_cons_zero, Option.some.injEq] at hq
              subst hq
              simp
          | succ j =>
              exact absurd h0 (hbefore 0 q0 (Nat.succ_pos j) (by simp))
      · next h0 =>
          cases i with
          | zero =>
              simp only [List.getElem?_cons_zero, Option.some.injEq] at hq
              subst hq
              exact absurd hid h0
          | succ j =>
              simp only [List.getElem?_cons_succ] at hq ⊢
              exact ih j hq (fun k qk hk hget =>
                hbefore (k + 1) qk (Nat.succ_lt_succ hk) (by simpa using hget))

theorem updateCore_length (id t : String) (i : Nat)
    (secs : List CoreQuestionSection) :
    (updateCore id t i secs).length = secs.length := by
  induction secs generalizing i with
  | nil => cases i <;> rfl
  | cons s rest ih => cases i <;> simp [updateCore, ih]

theorem updateCore_getElem?_ne (id t : String) (i j : Nat)
    (secs : List CoreQuestionSection) (hij : j ≠ i) :
    (updateCore id t i secs)[j]? = secs[j]? := by
  induction secs generalizing i j with
  | nil => cases i <;> rfl
  | cons s rest ih =>
      cases i with
      | zero =>
          cases j with
          | zero => exact absurd rfl hij
          | succ k => simp [updateCore]
      | succ i' =>
          cases j with
          | zero => simp [updateCore]
          | succ k =>
              simp only [updateCore, List.getElem?_cons_succ]
              exact ih i' k (fun h => hij (by rw [h]))

theorem updateCore_getElem?_eq (id t : String) (i : Nat)
    (secs : List CoreQuestionSection) (s : CoreQuestionSection)
    (hs : secs[i]? = some s) :
    (updateCore id t i secs)[i]? =
      some { s with questions := updateQ id t s.questions } := by
  induction secs generalizing i with
  | nil => simp at hs
  | cons s0 rest ih =>
      cases i with
      | zero =>
          simp only [List.getElem?_cons_zero, Option.some.injEq] at hs
          subst hs
          simp [updateCore]
      | succ j =>
          simp only [updateCore, List.getElem?_cons_succ] at hs ⊢
          exact ih j hs

/-- Claim C8: updateQuestionText replaces only the matched question's
text. The questionnaire flag and every untargeted group stay untouched;
the targeted group is rewritten by the first-match text update, which
keeps the list length, leaves every question at a position whose id
differs unchanged, preserves id, type and options pointwise, and
replaces exactly the text of the first question carrying the id; a core
edit touches only the indexed section (keeping its topic and the other
sections), and a core edit without an index changes nothing. -/
theorem update_question_text_frame (c : GeneratedContent) (sec : SectionKey)
    (id t : String) (ci : Option Nat) (qs : List Question) (i : Nat)
    (q q' : Question) (secs : List CoreQuestionSection) (j : Nat)
    (s : CoreQuestionSection) :
    ((updateQuestionText c sec id t ci).isQuestionnaire = c.isQuestionnaire) ∧
    (sec ≠ SectionKey.opening → (updateQuestionText c sec id t ci).opening = c.opening) ∧
    (sec ≠ SectionKey.core → (updateQuestionText c sec id t ci).core = c.core) ∧
    (sec ≠ SectionKey.followUps →
      (updateQuestionText c sec id t ci).followUps = c.followUps) ∧
    (sec ≠ SectionKey.closing → (updateQuestionText c sec id t ci).closing = c.closing) ∧
    ((updateQuestionText c SectionKey.opening id t ci).opening = updateQ id t c.opening) ∧
    ((updateQuestionText c SectionKey.followUps id t ci).followUps =
      updateQ id t c.followUps) ∧
    ((updateQuestionText c SectionKey.closing id t ci).closing =
      updateQ id t c.closing) ∧
    ((updateQuestionText c SectionKey.core id t (some j)).core =
      updateCore id t j c.core) ∧
    (updateQuestionText c SectionKey.core id t none = c) ∧
    ((updateQ id t qs).length = qs.length) ∧
    (qs[i]? = some q → q.id ≠ id → (updateQ id t qs)[i]? = some q) ∧
    (qs[i]? = some q → (updateQ id t qs)[i]? = some q' →
      q'.id = q.id ∧ q'.type = q.type ∧ q'.options = q.options) ∧
    (qs[i]? = some q → q.id = id →
      (∀ k qk, k < i → qs[k]? = some qk → qk.id ≠ id) →
      (updateQ id t qs)[i]? = some { q with text := t }) ∧
    ((updateCore id t j secs).length = secs.length) ∧
    (∀ k, k ≠ j → (updateCore id t j secs)[k]? = secs[k]?) ∧
    (secs[j]? = some s →
      (updateCore id t j secs)[j]? =
        some { s with questions := updateQ id t s.questions }) := by
  refine ⟨?_, ?_, ?_, ?_, ?_, ?_, ?_, ?_, ?_, ?_,
    updateQ_length id t qs,
    fun hq hne => updateQ_getElem?_ne id t qs i q hq hne,
    fun hq hq' => updateQ_getElem?_fields id t qs i q q' hq hq',
    fun hq hid hb => updateQ_first_match id t qs i q hq hid hb,
    updateCore_length id t j secs,
    fun k hk => updateCore_getElem?_ne id t j k secs hk,
    fun hs => updateCore_getElem?_eq id t j secs s hs⟩
  · cases sec <;> cases ci <;> rfl
  · intro h
    cases sec <;> cases ci <;> first | rfl | exact absurd rfl h
  · intro h
    cases sec <;> cases ci <;> first | rfl | exact absurd rfl h
  · intro h
    cases sec <;> cases ci <;> first | rfl | exact absurd rfl h
  · intro h
    cases sec <;> cases ci <;> first | rfl | exact absurd rfl h
  · cases ci <;> rfl
  · cases ci <;> rfl
  · cases ci <;> rfl
  · rfl
  · rfl

/-- A document for exercising the edit operation: two opening questions
and one core section. -/
def docEdit : GeneratedContent :=
  { opening := [qFree, qSingle],
    core := [{ topic := "Pain Points", questions := [qMulti] }],
    followUps := [], closing := [] }

/-- Witness for update_question_text_frame: editing the second opening
question by its id changes only that question's text, leaves the first
question and the untargeted groups intact, and a core edit leaves the
section topic and the other groups unchanged. -/
theorem update_question_text_frame_witness :
    (updateQuestionText docEdit SectionKey.opening ("q2") ("NEW") none).core =
      docEdit.core ∧
    (updateQ ("q2") ("NEW") docEdit.opening)[0]? = some qFree ∧
    (updateQ ("q2") ("NEW") docEdit.opening)[1]? =
      some { qSingle with text := "NEW" } ∧
    (updateCore ("q2") ("NEW") 0 docEdit.core)[0]? =
      some { topic := "Pain Points", questions := updateQ ("q2") ("NEW") [qMulti] } := by
  have h := update_question_text_frame docEdit SectionKey.opening ("q2") ("NEW")
    none docEdit.opening 1 qSingle qSingle docEdit.core 0
    { topic := "Pain Points", questions := [qMulti] }
  refine ⟨h.2.2.1 (by decide), ?_, ?_, ?_⟩
  · exact (update_question_text_frame docEdit SectionKey.opening ("q2") ("NEW")
      none docEdit.opening 0 qFree qFree docEdit.core 0
      { topic := "Pain Points", questions := [qMulti] }).2.2.2.2.2.2.2.2.2.2.2.1
      (by decide) (by decide)
  · refine h.2.2.2.2.2.2.2.2.2.2.2.2.2.1 (by decide) (by decide) ?_
    intro k qk hk hget
    have hk0 : k = 0 := by omega
    subst hk0
    have : qk = qFree := by
      simpa [docEdit] using hget.symm
    subst this
    decide
  · exact h.2.2.2.2.2.2.2.2.2.2.2.2.2.2.2.2 (by decide)

theorem stringJoin_append (a b : List String) :
    String.join (a ++ b) = String.join a ++ String.join b := by
  apply String.ext
  simp [String.join_eq, String.data_append]

theorem coreBlocks_append (st : QState) (secs₁ secs₂ : List CoreQuestionSection) :
    coreBlocks st (secs₁ ++ secs₂) =
      ((coreBlocks (coreBlocks st secs₁).1 secs₂).1,
        (coreBlocks st secs₁).2 ++ (coreBlocks (coreBlocks st secs₁).1 secs₂).2) := by
  induction secs₁ generalizing st with
  | nil => simp [coreBlocks]
  | cons s rest ih =>
      simp only [List.cons_append, coreBlocks, List.append_eq]
      rw [ih]
      simp [List.append_assoc]

theorem emitQuestion_typed_ne_nil (st : QState) (q : Question)
    (h : q.type ≠ none) : (emitQuestion st q).2 ≠ [] := by
  rcases q with ⟨i, t, ty, os⟩
  rcases ty with _ | ty
  · simp at h
  · cases ty <;> simp [emitQuestion]

theorem blockLines_head (marker : String) (st : QState) (qs : List Question)
    (h : qs ≠ []) : ((blockLines marker st qs).2).head? = some marker := by
  rw [blockLines]
  simp [List.length_pos, h]

theorem foldl_writes_suffix {α : Type} (f : PdfState → α → PdfState)
    (hf : ∀ s a, ∃ n, (f s a).writes = s.writes ++ n) :
    ∀ (l : List α) (s : PdfState), ∃ n, (l.foldl f s).writes = s.writes ++ n := by
  intro l
  induction l with
  | nil => exact fun s => ⟨[], by simp⟩
  | cons a rest ih =>
      intro s
      obtain ⟨n1, h1⟩ := hf s a
      obtain ⟨n2, h2⟩ := ih (f s a)
      exact ⟨n1 ++ n2, by simp [h2, h1]⟩

theorem addQuestion_writes_first (split : SplitFn) (pst : PdfState) (q : Question) :
    ∃ new, (addQuestion split pst q).writes =
      pst.writes ++
        (⟨(checkPageBreak
            (((split 11 ("- " ++ q.text) (maxLineWidth - 5)).length : Rat) * 5 + 2) pst).y,
          margin + 2, split 11 ("- " ++ q.text) (maxLineWidth - 5)⟩ :: new) := by
  simp only [addQuestion]
  split
  · obtain ⟨n, hn⟩ := foldl_writes_suffix
      (fun s opt =>
        let optionLines := split 10 ("    â€¢ " ++ opt) (maxLineWidth - 10)
        let s1 := checkPageBreak ((optionLines.length : Rat) * (9 / 2)) s
        let s2 := pdfText (margin + 5) optionLines s1
        { s2 with y := s2.y + (optionLines.length : Rat) * (9 / 2) })
      (fun s opt => ⟨[⟨(checkPageBreak
          (((split 10 ("    â€¢ " ++ opt) (maxLineWidth - 10)).length : Rat) * (9 / 2)) s).y,
          margin + 5, split 10 ("    â€¢ " ++ opt) (maxLineWidth - 10)⟩],
        by simp [pdfText, checkPageBreak_writes]⟩)
      (q.options.getD []) _
    refine ⟨n, ?_⟩
    rw [hn]
    simp [pdfText, checkPageBreak_writes]
  · exact ⟨[], by simp [pdfText, checkPageBreak_writes]⟩

theorem addSection_nonempty_heading (split : SplitFn) (t : String)
    (qs : List Question) (pst : PdfState) (h : qs ≠ []) :
    ∃ rest, (addSection split t qs pst).writes =
      pst.writes ++
        (⟨(checkPageBreak (((split 14 t maxLineWidth).length : Rat) * 7 + 8) pst).y,
          margin, split 14 t maxLineWidth⟩ :: rest) := by
  rw [addSection, if_neg (by simpa using h)]
  obtain ⟨n, hn⟩ := foldl_writes_suffix (addQuestion split)
    (fun s a => (addQuestion_writes_first split s a).elim
      (fun nw hw => ⟨_ :: nw, hw⟩)) qs _
  refine ⟨n, ?_⟩
  rw [hn]
  simp [pdfText, checkPageBreak_writes]

/-- Claim C6: every renderer emits groups in the fixed order Opening,
core sections in document order, Follow-ups, Closing, and renders
questions and options within a group in input order: the delimited
serializer's question-list and section-list processing are compositional
over list append and its whole output is the four groups' lines in that
order; a typed question always contributes lines and a non-empty group
always opens with its marker; the plain-text renderer's question and
section emission are compositional over append and the whole output is
the four group parts in order; the PDF layout folds questions left to
right, only ever appends writes (a question's write first, then its
options), and a non-empty group always opens with its heading write. -/
theorem renderer_order_preservation (st : QState) (qs₁ qs₂ l₁ l₂ : List Question)
    (secs₁ secs₂ : List CoreQuestionSection) (c : GeneratedContent) (q : Question)
    (marker t : String) (split : SplitFn) (pst : PdfState) :
    (processQuestions st (qs₁ ++ qs₂) =
      ((processQuestions (processQuestions st qs₁).1 qs₂).1,
        (processQuestions st qs₁).2 ++
          (processQuestions (processQuestions st qs₁).1 qs₂).2)) ∧
    (coreBlocks st (secs₁ ++ secs₂) =
      ((coreBlocks (coreBlocks st secs₁).1 secs₂).1,
        (coreBlocks st secs₁).2 ++ (coreBlocks (coreBlocks st secs₁).1 secs₂).2)) ∧
    ((qualtricsBlocks st c).2 =
      (blockLines ("[[Block:Opening / Warm-up Questions]]") st c.opening).2 ++
      (coreBlocks (blockLines ("[[Block:Opening / Warm-up Questions]]") st
        c.opening).1 c.core).2 ++
      (blockLines ("[[Block:Follow-ups / Probes]]")
        (coreBlocks (blockLines ("[[Block:Opening / Warm-up Questions]]") st
          c.opening).1 c.core).1 c.followUps).2 ++
      (blockLines ("[[Block:Closing / Wrap-up]]")
        (blockLines ("[[Block:Follow-ups / Probes]]")
          (coreBlocks (blockLines ("[[Block:Opening / Warm-up Questions]]") st
            c.opening).1 c.core).1 c.followUps).1 c.closing).2) ∧
    (q.type ≠ none → (emitQuestion st q).2 ≠ []) ∧
    (qs₁ ≠ [] → ((blockLines marker st qs₁).2).head? = some marker) ∧
    (String.join ((l₁ ++ l₂).map questionLine) =
      String.join (l₁.map questionLine) ++ String.join (l₂.map questionLine)) ∧
    (String.join ((secs₁ ++ secs₂).map ptSection) =
      String.join (secs₁.map ptSection) ++ String.join (secs₂.map ptSection)) ∧
    (formatContentAsText c = ptOpening c ++ ptCore c ++ ptFollow c ++ ptClosing c) ∧
    ((l₁ ++ l₂).foldl (addQuestion split) pst =
      l₂.foldl (addQuestion split) (l₁.foldl (addQuestion split) pst)) ∧
    (∃ new, (addQuestion split pst q).writes =
      pst.writes ++
        (⟨(checkPageBreak
            (((split 11 ("- " ++ q.text) (maxLineWidth - 5)).length : Rat) * 5 + 2)
            pst).y,
          margin + 2, split 11 ("- " ++ q.text) (maxLineWidth - 5)⟩ :: new)) ∧
    (qs₁ ≠ [] → ∃ rest, (addSection split t qs₁ pst).writes =
      pst.writes ++
        (⟨(checkPageBreak (((split 14 t maxLineWidth).length : Rat) * 7 + 8) pst).y,
          margin, split 14 t maxLineWidth⟩ :: rest)) := by
  refine ⟨processQuestions_append st qs₁ qs₂, coreBlocks_append st secs₁ secs₂, rfl,
    emitQuestion_typed_ne_nil st q, blockLines_head marker st qs₁,
    by rw [List.map_append, stringJoin_append],
    by rw [List.map_append, stringJoin_append], rfl,
    List.foldl_append (addQuestion split) pst l₁ l₂,
    addQuestion_writes_first split pst q,
    addSection_nonempty_heading split t qs₁ pst⟩

/-- Witness for renderer_order_preservation: the hypothesis-bearing parts
applied at a one-question group. -/
theorem renderer_order_preservation_witness :
    (emitQuestion ⟨1, 1⟩ qFree).2 ≠ [] ∧
    ((blockLines ("[[Block:Closing / Wrap-up]]") ⟨1, 1⟩ [qFree]).2).head? =
      some ("[[Block:Closing / Wrap-up]]") ∧
    (∃ rest, (addSection (fun _ s _ => [s]) ("Opening / Warm-up Questions")
        [qFree] ⟨margin, 1, []⟩).writes =
      (⟨margin, 1, []⟩ : PdfState).writes ++
        (⟨(checkPageBreak ((([("Opening / Warm-up Questions")].length : Nat) : Rat) * 7 + 8)
            ⟨margin, 1, []⟩).y,
          margin, [("Opening / Warm-up Questions")]⟩ :: rest)) := by
  have h := renderer_order_preservation ⟨1, 1⟩ [qFree] [] [] [] [] []
    docIqNone qFree ("[[Block:Closing / Wrap-up]]") ("Opening / Warm-up Questions")
    (fun _ s _ => [s]) ⟨margin, 1, []⟩
  exact ⟨h.2.2.2.1 (by decide), h.2.2.2.2.1 (by decide),
    h.2.2.2.2.2.2.2.2.2.2 (by decide)⟩

theorem stringJoin_cons (x : String) (xs : List String) :
    String.join (x :: xs) = x ++ String.join xs := by
  apply String.ext
  simp [String.join_eq, String.data_append]

theorem optionsFold_writes_shape (split : SplitFn) (opts : List String) :
    ∀ s : PdfState, ∃ ws,
      (opts.foldl (fun s2 opt =>
        let optionLines := split 10 ("    â€¢ " ++ opt) (maxLineWidth - 10)
        let s3 := checkPageBreak ((optionLines.length : Rat) * (9 / 2)) s2
        let s4 := pdfText (margin + 5) optionLines s3
        { s4 with y := s4.y + (optionLines.length : Rat) * (9 / 2) }) s).writes =
      s.writes ++ ws ∧
      ws.map (fun w => (w.x, w.lines)) =
        opts.map (fun opt =>
          (margin + 5, split 10 ("    â€¢ " ++ opt) (maxLineWidth - 10))) := by
  induction opts with
  | nil => exact fun s => ⟨[], by simp, by simp⟩
  | cons o rest ih =>
      intro s
      obtain ⟨ws, hw, hm⟩ := ih _
      refine ⟨⟨(checkPageBreak
          (((split 10 ("    â€¢ " ++ o) (maxLineWidth - 10)).length : Rat) * (9 / 2)) s).y,
        margin + 5, split 10 ("    â€¢ " ++ o) (maxLineWidth - 10)⟩ :: ws, ?_, ?_⟩
      · simp only [List.foldl_cons]
        rw [hw]
        simp [pdfText, checkPageBreak_writes]
      · simp [hm]

/-- Claim C5 (amended): the delimited serializer renders a FreeText
question as the single TE line plus the separator blank, never options;
the plain-text and PDF renderers key option emission on the options
field alone (type is not consulted): each listed option yields one
indented plain-text line and one PDF option write after the question's
own write, in input order, and none when the options field is absent or
empty — so a FreeText question carrying non-empty options does emit
option lines in plain text and PDF. -/
theorem freetext_options_amended (st : QState) (q : Question)
    (split : SplitFn) (pst : PdfState) :
    (q.type = some QuestionType.FreeText →
      (emitQuestion st q).2 = [("TE" ++ toString st.te ++ ". " ++ q.text), ""]) ∧
    (q.options.getD [] = [] → questionLine q = "- " ++ q.text ++ "\n") ∧
    (∀ opt ∈ q.options.getD [], ∃ a b,
      questionLine q = a ++ ("  - " ++ opt ++ "\n") ++ b) ∧
    (∃ ws, (addQuestion split pst q).writes =
      pst.writes ++
        (⟨(checkPageBreak
            (((split 11 ("- " ++ q.text) (maxLineWidth - 5)).length : Rat) * 5 + 2)
            pst).y,
          margin + 2, split 11 ("- " ++ q.text) (maxLineWidth - 5)⟩ :: ws) ∧
      ws.map (fun w => (w.x, w.lines)) =
        (q.options.getD []).map (fun opt =>
          (margin + 5, split 10 ("    â€¢ " ++ opt) (maxLineWidth - 10)))) := by
  have hjoin : String.join [] = "" := rfl
  refine ⟨fun h => by simp [emitQuestion, h],
    fun h => by simp [questionLine, h, hjoin, String.append_empty], ?_, ?_⟩
  · intro opt hopt
    obtain ⟨l1, l2, hsplit⟩ := List.append_of_mem hopt
    refine ⟨("- " ++ q.text ++ "\n")
        ++ String.join (l1.map (fun o => "  - " ++ o ++ "\n")),
      String.join (l2.map (fun o => "  - " ++ o ++ "\n")), ?_⟩
    simp [questionLine, hsplit, List.map_append, stringJoin_append, stringJoin_cons,
      String.append_assoc]
  · simp only [addQuestion]
    split
    · next hlen =>
        obtain ⟨ws, hw, hm⟩ := optionsFold_writes_shape split (q.options.getD []) _
        refine ⟨ws, ?_, hm⟩
        rw [hw]
        simp [pdfText, checkPageBreak_writes]
    · next hlen =>
        have hopt : q.options.getD [] = [] := by simpa using hlen
        refine ⟨[], ?_, by simp [hopt]⟩
        simp [pdfText, checkPageBreak_writes]

/-- Witness for freetext_options_amended at the option-less qFree and at
qFreeOpts, whose single option yields an option line in the plain-text
rendering and exactly one option write in the PDF layout. -/
theorem freetext_options_amended_witness :
    (emitQuestion ⟨1, 1⟩ qFree).2 = [("TE1. F"), ""] ∧
    questionLine qFree = "- F\n" ∧
    (∃ a b, questionLine qFreeOpts = a ++ ("  - " ++ "A" ++ "\n") ++ b) ∧
    (∃ ws, (addQuestion (fun _ _ _ => ([] : List String))
        ⟨margin, 1, []⟩ qFreeOpts).writes =
      ⟨15, 17, []⟩ :: ws ∧
      ws.map (fun w => (w.x, w.lines)) = [((20 : Rat), ([] : List String))]) := by
  have h := freetext_options_amended ⟨1, 1⟩ qFree
    (fun _ _ _ => ([] : List String)) ⟨margin, 1, []⟩
  have h2 := freetext_options_amended ⟨1, 1⟩ qFreeOpts
    (fun _ _ _ => ([] : List String)) ⟨margin, 1, []⟩
  refine ⟨?_, ?_, h2.2.2.1 ("A") (by decide), ?_⟩
  · rw [h.1 rfl]
    decide
  · rw [h.2.1 rfl]
    decide
  · obtain ⟨ws, hw, hm⟩ := h2.2.2.2
    refine ⟨ws, ?_, ?_⟩
    · rw [hw]
      norm_num [checkPageBreak, margin, pageHeight]
    · rw [hm]
      norm_num [margin, qFreeOpts]
